import Mathlib

/-!
Verification of the EBIOS RM risk-management editor (src/app.js) against its
specification.  The JavaScript code is shallowly embedded: stored field values
whose only use is through parseInt are modelled as Option Int (none standing
for a NaN parse result), strings as Lean strings or character lists, and each
handler or helper function is transcribed as a pure Lean function over the
relevant slice of the data model.
-/

namespace ERM2

/-- JS truthiness fallback v or d for integer-valued numbers: 0 is falsy. -/
def jsOrI (v d : Int) : Int := if v = 0 then d else v

/-- JS fallback for an optional string: undefined and null give the default. -/
def jsOrS (v : Option String) : String := v.getD ""

/-- The pattern parseInt(x, 10) or d: the argument is the parse result,
none standing for NaN; NaN and 0 both fall back to d. -/
def parseIntOr (v : Option Int) (d : Int) : Int :=
  match v with
  | none => d
  | some n => jsOrI n d

/-- pertinenceBucket from renderSROV (src/app.js lines 1939-1944). -/
def pertinenceBucket (p : Int) : Int :=
  if p ≥ 13 then 4 else if p ≥ 9 then 3 else if p ≥ 5 then 2 else 1

/-- The pertinenceBucket closure declared again inside updateAtelier2Chart
(src/app.js lines 4225-4230). -/
def pertinenceBucketA2 (p : Int) : Int :=
  if p ≥ 13 then 4 else if p ≥ 9 then 3 else if p ≥ 5 then 2 else 1

/-- A raw SROV couple as stored: each scored field is kept as its
parseInt result (none when the stored value does not parse). -/
structure SrovRaw where
  motivation : Option Int
  ressources : Option Int
  priorite : Option Int
deriving DecidableEq, Repr

/-- An SROV couple after the renderSROV numeric normalization. -/
structure Srov where
  motivation : Int
  ressources : Int
  priorite : Int
deriving DecidableEq, Repr

/-- Numeric normalization in renderSROV (src/app.js lines 1948-1950):
item.motivation = parseInt(item.motivation, 10) or 1, and likewise for
ressources and priorite. -/
def normalizeSrov (it : SrovRaw) : Srov :=
  { motivation := parseIntOr it.motivation 1
    ressources := parseIntOr it.ressources 1
    priorite := parseIntOr it.priorite 1 }

/-- setPertinence in renderSROV (src/app.js lines 2057-2062): the table cell
shows p = (item.motivation or 1) * (item.ressources or 1) and its bucket. -/
def setPertinence (it : Srov) : Int × Int :=
  let p := jsOrI it.motivation 1 * jsOrI it.ressources 1
  (p, pertinenceBucket p)

/-- Edge pertinence computed in updateAtelier2Chart (src/app.js lines
4238-4241): m and r are re-parsed from the raw item with default 1, and the
edge carries p = m * r together with its bucket. -/
def atelier2EdgePertinence (it : SrovRaw) : Int × Int :=
  let m := parseIntOr it.motivation 1
  let r := parseIntOr it.ressources 1
  let p := m * r
  (p, pertinenceBucketA2 p)

/-- A raw stakeholder cartography entry as stored: each scored field is kept
as its parseInt result (none when the stored value does not parse). -/
structure PpcRaw where
  dependance : Option Int
  penetration : Option Int
  maturite : Option Int
  confiance : Option Int
deriving DecidableEq, Repr

/-- A stakeholder cartography entry after the renderPPCarto numeric
normalization. -/
structure Ppc where
  dependance : Int
  penetration : Int
  maturite : Int
  confiance : Int
deriving DecidableEq, Repr

/-- Numeric normalization in renderPPCarto (src/app.js lines 2260-2263):
item.dependance = parseInt(item.dependance, 10) or 1, and likewise for
penetration, maturite and confiance. -/
def normalizePpc (it : PpcRaw) : Ppc :=
  { dependance := parseIntOr it.dependance 1
    penetration := parseIntOr it.penetration 1
    maturite := parseIntOr it.maturite 1
    confiance := parseIntOr it.confiance 1 }

/-- updateDerivedCells (src/app.js lines 2535-2538): exposition, niveau SSI
and indice for a cartography entry.  The JS number division is modelled
exactly over the rationals. -/
def updateDerivedCells (e : Ppc) : Int × Int × ℚ :=
  let expo := jsOrI e.dependance 1 * jsOrI e.penetration 1
  let niveau := jsOrI e.maturite 1 * jsOrI e.confiance 1
  let indice : ℚ := if niveau = 0 then 0 else (expo : ℚ) / (niveau : ℚ)
  (expo, niveau, indice)

/-- An event impact value as stored: either a JS number (integer-valued in
this model) or a non-number value together with its parseInt result. -/
inductive ImpactVal where
  | num (n : Int)
  | other (p : Option Int)
deriving DecidableEq, Repr

/-- Impact normalization in renderEventsTable (src/app.js lines 562-566):
when the stored impact is falsy or not a number, it is replaced by its
parseInt result if that lies in [1,4] and by 1 otherwise; a truthy stored
number is left untouched. -/
def normalizeImpact : ImpactVal → Int
  | .num n => if n = 0 then 1 else n
  | .other p =>
    match p with
    | some k => if 1 ≤ k ∧ k ≤ 4 then k else 1
    | none => 1

/-- A support embedded in a mission (src/app.js, missions table). -/
structure Support where
  name : Option String
  description : Option String
  responsable : Option String
deriving DecidableEq, Repr

/-- A mission (valeur métier).  Text fields not used by any derived
computation are kept as optional strings. -/
structure Mission where
  id : String
  denom : Option String
  description : Option String
  responsable : Option String
  supports : List Support
deriving DecidableEq, Repr

/-- A feared event tied to a mission. -/
structure Event where
  id : String
  missionId : String
  evenement : Option String
  impactDescription : Option String
  impact : ImpactVal
deriving DecidableEq, Repr

/-- A GAP requirement; all fields are stored strings. -/
structure GapReq where
  id : Option String
  domaine : Option String
  titre : Option String
  description : Option String
  application : Option String
  justification : Option String
deriving DecidableEq, Repr

/-- A risk entry attached to an operational scenario. -/
structure ScRisk where
  name : String
  vraisemblance : Option Int
  gravite : Option Int
deriving DecidableEq, Repr

/-- An operational scenario (so collection), restricted to the fields the
claims use. -/
structure Scenario where
  eventId : Option String
  risks : List ScRisk
  vraisemblance : Option Int
  gravite : Option Int
deriving DecidableEq, Repr

/-- The analysis.data sub-collections touched by the claims. -/
structure Data where
  missions : List Mission
  events : List Event
  gap : List GapReq
  srov : List SrovRaw
  ppc : List PpcRaw
  so : List Scenario
  risques : List String
deriving DecidableEq, Repr

/-- Mission delete handler in renderMissionsTable (src/app.js lines 484-493):
splices the mission at the rendered row index out of data.missions and keeps
only the events whose missionId differs from the deleted mission's id; all
other collections are left untouched.  The handler only exists for a rendered
row, so the out-of-range branch is unreachable and returns the data
unchanged. -/
def deleteMission (d : Data) (idx : Nat) : Data :=
  match d.missions[idx]? with
  | none => d
  | some mission =>
    { d with
      missions := d.missions.eraseIdx idx
      events := d.events.filter (fun ev => ev.missionId ≠ mission.id) }

/-- Concrete data used to witness the mission-delete cascade: two missions,
two events on the first and one on the second. -/
def exDeleteData : Data :=
  { missions :=
      [{ id := "m1", denom := some "M1", description := none, responsable := none,
         supports := [] },
       { id := "m2", denom := some "M2", description := none, responsable := none,
         supports := [] }]
    events :=
      [{ id := "e1", missionId := "m1", evenement := none, impactDescription := none,
         impact := .num 3 },
       { id := "e2", missionId := "m1", evenement := none, impactDescription := none,
         impact := .num 2 },
       { id := "e3", missionId := "m2", evenement := none, impactDescription := none,
         impact := .num 4 }]
    gap := []
    srov := []
    ppc := []
    so := []
    risques := [] }

/-- JS String.toLowerCase, character by character, covering ASCII and the
accented capitals that can occur in the French status labels. -/
def jsToLowerChar (c : Char) : Char :=
  if c = 'É' then 'é'
  else if c = 'È' then 'è'
  else if c = 'Ê' then 'ê'
  else if c = 'À' then 'à'
  else if c = 'Â' then 'â'
  else if c = 'Î' then 'î'
  else if c = 'Ô' then 'ô'
  else if c = 'Û' then 'û'
  else if c = 'Ç' then 'ç'
  else c.toLower

/-- Effect of normalize(NFD) followed by deleting Unicode diacritic marks,
character by character, for the accented letters of the status labels: each
accented letter decomposes into its base letter plus a combining mark, and
the mark is deleted. -/
def stripDiacriticChar (c : Char) : Char :=
  if c = 'é' ∨ c = 'è' ∨ c = 'ê' then 'e'
  else if c = 'à' ∨ c = 'â' then 'a'
  else if c = 'î' then 'i'
  else if c = 'ô' then 'o'
  else if c = 'û' ∨ c = 'ù' then 'u'
  else if c = 'ç' then 'c'
  else c

/-- The whitespace class of the JS regex backslash-s, restricted to the
characters this data can contain. -/
def jsIsSpaceChar (c : Char) : Bool :=
  c == ' ' || c == '\t' || c == '\n' || c == '\r'

/-- Whether the first list starts with the second (JS String.startsWith). -/
def startsWithList : List Char → List Char → Bool
  | _, [] => true
  | [], _ :: _ => false
  | c :: cs, d :: ds => c == d && startsWithList cs ds

/-- The application normalization in the gap branch of openImportModal
(src/app.js lines 1182-1184): lowercase, strip diacritics, then delete all
whitespace. -/
def normalizeApplication (application : Option String) : List Char :=
  (((jsOrS application).data.map jsToLowerChar).map stripDiacriticChar).filter
    (fun c => !(jsIsSpaceChar c))

/-- The gap branch of openImportModal skips a requirement exactly when its
normalized application starts with applique (src/app.js line 1185). -/
def gapExcluded (req : GapReq) : Bool :=
  startsWithList (normalizeApplication req.application) "applique".data

/-- An entry of the import modal candidate list. -/
structure ImportItem where
  label : String
  desc : String
  extra : String
deriving DecidableEq, Repr

/-- Item construction for a kept requirement (src/app.js lines 1186-1193):
the label joins the truthy parts among domaine and titre. -/
def mkGapImportItem (req : GapReq) : ImportItem :=
  let labelParts :=
    (if jsOrS req.domaine ≠ "" then [jsOrS req.domaine] else []) ++
      (if jsOrS req.titre ≠ "" then [jsOrS req.titre] else [])
  { label := String.intercalate " – " labelParts
    desc := jsOrS req.description
    extra := jsOrS req.application }

/-- The candidate list built by the gap branch of openImportModal
(src/app.js lines 1179-1194): one item per requirement not excluded. -/
def gapImportItems (gap : List GapReq) : List ImportItem :=
  gap.filterMap (fun req => if gapExcluded req then none else some (mkGapImportItem req))

/-- The four canonical requirements used to witness the gap import filter. -/
def exGapReqs : List GapReq :=
  ["Appliqué", "Partiellement appliqué", "Non appliqué", "Non applicable"].map
    (fun s =>
      { id := none, domaine := some "ACC", titre := some s, description := none,
        application := some s, justification := none })

/-- A whole analysis: id, title and the data sub-collections. -/
structure Analysis where
  id : Option String
  title : Option String
  data : Data
deriving DecidableEq, Repr

/-- The result of JSON.parse on an imported whole-analysis document:
unparsable input throws, otherwise the document is a top-level array of
analyses, a single analysis object, or some other scalar value. -/
inductive ImportDoc where
  | unparsable
  | arr (items : List Analysis)
  | obj (a : Analysis)
  | scalar
deriving DecidableEq, Repr

/-- Outcome of the import-file change handler: the analyses list afterwards,
whether the invalid-file alert was shown, and whether saveAnalyses ran. -/
structure ImportOutcome where
  analyses : List Analysis
  errorShown : Bool
  saved : Bool
deriving DecidableEq, Repr

/-- import-file change handler (src/app.js lines 4864-4887): a parse failure
alerts and leaves everything untouched; an array replaces the store; an
object is appended and becomes the selected analysis; any other parsed value
changes nothing but is still followed by a save. -/
def importFileChange (doc : ImportDoc) (analyses : List Analysis) : ImportOutcome :=
  match doc with
  | .unparsable => { analyses := analyses, errorShown := true, saved := false }
  | .arr items => { analyses := items, errorShown := false, saved := true }
  | .obj a => { analyses := analyses ++ [a], errorShown := false, saved := true }
  | .scalar => { analyses := analyses, errorShown := false, saved := true }

/-- A loosely-keyed requirement record of a GAP import document, carrying
both canonical and alias keys. -/
structure GapRawRec where
  domaine : Option String
  domain : Option String
  titre : Option String
  title : Option String
  description : Option String
  desc : Option String
  application : Option String
  status : Option String
  justification : Option String
  justif : Option String
deriving DecidableEq, Repr

/-- JS a or b or empty-string on two optional strings: the first truthy
(non-missing, nonempty) value wins. -/
def jsOrSS (a b : Option String) : String :=
  if jsOrS a ≠ "" then jsOrS a else jsOrS b

/-- Requirement built from one imported record (src/app.js lines 4496-4503):
a fresh id is assigned and each field falls back to its alias key. -/
def mkImportedGapReq (newId : String) (obj : GapRawRec) : GapReq :=
  { id := some newId
    domaine := some (jsOrSS obj.domaine obj.domain)
    titre := some (jsOrSS obj.titre obj.title)
    description := some (jsOrSS obj.description obj.desc)
    application := some (jsOrSS obj.application obj.status)
    justification := some (jsOrSS obj.justification obj.justif) }

/-- The result of JSON.parse on a GAP bulk import document: unparsable input
throws, a parsed non-array is rejected, and an array holds the records. -/
inductive GapDoc where
  | unparsable
  | nonArray
  | arr (items : List GapRawRec)
deriving DecidableEq, Repr

/-- Outcome of the gap-import-file change handler. -/
structure GapImportOutcome where
  gap : List GapReq
  errorShown : Bool
  saved : Bool
deriving DecidableEq, Repr

/-- gap-import-file change handler (src/app.js lines 4481-4514): a parse
failure alerts and changes nothing, a non-array document alerts and changes
nothing, and an array appends one freshly-identified requirement per record
before saving.  The fresh uid() calls are modelled by an injective supply of
identifiers indexed by position. -/
def gapImportChange (doc : GapDoc) (gap : List GapReq) (mkId : Nat → String) :
    GapImportOutcome :=
  match doc with
  | .unparsable => { gap := gap, errorShown := true, saved := false }
  | .nonArray => { gap := gap, errorShown := true, saved := false }
  | .arr items =>
    { gap := gap ++ items.mapIdx (fun i obj => mkImportedGapReq (mkId i) obj)
      errorShown := false
      saved := true }

/-- export-btn handler (src/app.js lines 4840-4851): the current analysis is
serialized verbatim with JSON.stringify; no derived value lives on the
analysis object, so only stored source fields appear in the document, and
JSON.parse of the produced text yields an equal object — the exported
document is therefore modelled by the object branch holding the analysis
itself. -/
def exportAnalysis (a : Analysis) : ImportDoc := .obj a

/-- addRiskToScenario (src/app.js lines 1423-1430): pushes a risk named
name onto the target scenario, carrying the scenario-level vraisemblance and
gravite without prompting.  The manual-addition button (lines 1438-1442) and
a library pick go through this helper. -/
def addRiskToScenario (sc : Scenario) (name : String) : Scenario :=
  { sc with risks := sc.risks ++
      [{ name := name, vraisemblance := sc.vraisemblance, gravite := sc.gravite }] }

/-- The apply-selection handler of the risk modal (src/app.js lines
1448-1462): pushes one risk per selected name, each carrying the
scenario-level vraisemblance and gravite. -/
def applyRiskSelection (sc : Scenario) (selectedRiskNames : List String) : Scenario :=
  let rs := selectedRiskNames.foldl
    (fun rs name => rs ++
      [{ name := name, vraisemblance := sc.vraisemblance, gravite := sc.gravite }])
    sc.risks
  { sc with risks := rs }

/-- Concrete scenario used to witness the risk-addition claim. -/
def exScenario : Scenario :=
  { eventId := some "e1", risks := [], vraisemblance := some 3, gravite := some 2 }

/-- The stored impact as parsed by updateAtelier1Graph: parseInt on a number
is the number itself, and on any other value its parse result. -/
def impParsed : ImpactVal → Option Int
  | .num n => some n
  | .other p => p

/-- parseInt(ev.impact, 10) or 0 as used by updateAtelier1Graph
(src/app.js line 1636). -/
def eventImpactA1 (ev : Event) : Int := parseIntOr (impParsed ev.impact) 0

/-- The impactByMission map of updateAtelier1Graph (src/app.js lines
1633-1640), read back through the or-0 lookup (line 1644): the maximum
parsed impact over the events whose missionId equals the mission, 0 when
there are none. -/
def missionImpact (events : List Event) (mid : String) : Int :=
  match (events.filter (fun ev => ev.missionId = mid)).map eventImpactA1 with
  | [] => 0
  | x :: xs => xs.foldl max x

/-- JS String.trim on the character-list model. -/
def trimChars (s : List Char) : List Char :=
  (((s.dropWhile (fun c => jsIsSpaceChar c)).reverse).dropWhile
    (fun c => jsIsSpaceChar c)).reverse

/-- The support key used by updateAtelier1Graph (src/app.js line 1646):
(s.name or empty).trim(). -/
def supportKey (s : Support) : String := String.mk (trimChars (jsOrS s.name).data)

/-- Degree and maximum impact accumulated per support name. -/
structure SupportStat where
  degree : Nat
  maxImpact : Int
deriving DecidableEq, Repr

/-- One update of the supportStats map (src/app.js lines 1648-1652): an
absent name enters with degree 0 and maxImpact 0, then the degree is
incremented and the maximum is raised to the current mission impact when
larger; an existing entry keeps its position. -/
def bumpStat (name : String) (mImp : Int) :
    List (String × SupportStat) → List (String × SupportStat)
  | [] => [(name, { degree := 1, maxImpact := max 0 mImp })]
  | (n, st) :: rest =>
    if n = name then
      (n, { degree := st.degree + 1, maxImpact := max st.maxImpact mImp }) :: rest
    else (n, st) :: bumpStat name mImp rest

/-- The inner loop of the supportStats accumulation (src/app.js lines
1645-1653): every support entry of the mission with a nonempty trimmed name
bumps that name with the mission impact. -/
def bumpSupports (v : Int) (supports : List Support)
    (stats : List (String × SupportStat)) : List (String × SupportStat) :=
  supports.foldl
    (fun stats s =>
      let name := supportKey s
      if name = "" then stats else bumpStat name v stats)
    stats

/-- The supportStats map of updateAtelier1Graph (src/app.js lines
1642-1654), as an insertion-ordered association list. -/
def supportStats (missions : List Mission) (events : List Event) :
    List (String × SupportStat) :=
  missions.foldl
    (fun stats m => bumpSupports (missionImpact events m.id) m.supports stats)
    []

/-- Modelled from the spec: the number of missions referencing a support
name — the reading of degree in the claim and in spec section 4.2. -/
def missionsReferencing (missions : List Mission) (name : String) : Nat :=
  (missions.filter (fun m => m.supports.any (fun s => supportKey s = name))).length

/-- The number of support entries bearing a name across all missions (what
the code actually counts as degree). -/
def supportEntryCount (missions : List Mission) (name : String) : Nat :=
  (missions.map (fun m => (m.supports.filter (fun s => supportKey s = name)).length)).sum

/-- The maximum, starting from 0, of the mission impacts of the missions
holding a support entry with the given name. -/
def supportMaxImpact (missions : List Mission) (events : List Event)
    (name : String) : Int :=
  ((missions.filter (fun m => m.supports.any (fun s => supportKey s = name))).map
    (fun m => missionImpact events m.id)).foldl max 0

/-- Merging one mission with k matching entries and impact v into an
accumulated stat. -/
def mergeStat : Option SupportStat → Nat → Int → SupportStat
  | none, k, v => { degree := k, maxImpact := max 0 v }
  | some st, k, v => { degree := st.degree + k, maxImpact := max st.maxImpact v }

/-- The accumulated stat for one support name along a mission list, merging
mission by mission. -/
def statSpec (events : List Event) (name : String) (missions : List Mission)
    (acc : Option SupportStat) : Option SupportStat :=
  match missions with
  | [] => acc
  | m :: rest =>
    let k := (m.supports.filter (fun s => supportKey s = name)).length
    statSpec events name rest
      (if k = 0 then acc else some (mergeStat acc k (missionImpact events m.id)))

/-- A single mission listing the support name S1 twice. -/
def dupSupportMissions : List Mission :=
  [{ id := "m1", denom := some "M1", description := none, responsable := none,
     supports :=
       [{ name := some "S1", description := none, responsable := none },
        { name := some "S1", description := none, responsable := none }] }]

/-- The concrete scenario of the claim: mission M1 with support S1 and one
event E1 of impact 3. -/
def exA1Missions : List Mission :=
  [{ id := "m1", denom := some "M1", description := none, responsable := none,
     supports := [{ name := some "S1", description := none, responsable := none }] }]

/-- The single impact-3 event of the concrete Atelier 1 scenario. -/
def exA1Events : List Event :=
  [{ id := "e1", missionId := "m1", evenement := some "E1",
     impactDescription := none, impact := .num 3 }]

theorem parseIntOr_ne_zero (v : Option Int) : parseIntOr v 1 ≠ 0 := by
  rcases v with _ | n
  · simp [parseIntOr]
  · simp only [parseIntOr, jsOrI]
    split <;> omega

theorem jsOrI_of_ne_zero {v : Int} (h : v ≠ 0) (d : Int) : jsOrI v d = v := by
  simp [jsOrI, h]

/-- C1: for every SROV couple the derived pertinence equals
motivation × ressources, its level bucket is 4 when the product is at least
13, 3 when at least 9, 2 when at least 5 and 1 otherwise, and the table cell
(setPertinence) and the Atelier 2 network edges use exactly these
thresholds. -/
theorem srov_pertinence_product_and_buckets (it : SrovRaw) (p : Int) :
    setPertinence (normalizeSrov it) =
      ((normalizeSrov it).motivation * (normalizeSrov it).ressources,
        pertinenceBucket ((normalizeSrov it).motivation * (normalizeSrov it).ressources)) ∧
    atelier2EdgePertinence it = setPertinence (normalizeSrov it) ∧
    pertinenceBucketA2 p = pertinenceBucket p ∧
    (pertinenceBucket p = 4 ↔ 13 ≤ p) ∧
    (pertinenceBucket p = 3 ↔ 9 ≤ p ∧ p < 13) ∧
    (pertinenceBucket p = 2 ↔ 5 ≤ p ∧ p < 9) ∧
    (pertinenceBucket p = 1 ↔ p < 5) := by
  have hm := parseIntOr_ne_zero it.motivation
  have hr := parseIntOr_ne_zero it.ressources
  refine ⟨?_, ?_, ?_, ?_, ?_, ?_, ?_⟩
  · simp [setPertinence, normalizeSrov, jsOrI_of_ne_zero hm, jsOrI_of_ne_zero hr]
  · simp [setPertinence, atelier2EdgePertinence, normalizeSrov, pertinenceBucket,
      pertinenceBucketA2, jsOrI_of_ne_zero hm, jsOrI_of_ne_zero hr]
  · simp [pertinenceBucket, pertinenceBucketA2]
  · simp only [pertinenceBucket]; split_ifs <;> omega
  · simp only [pertinenceBucket]; split_ifs <;> omega
  · simp only [pertinenceBucket]; split_ifs <;> omega
  · simp only [pertinenceBucket]; split_ifs <;> omega

theorem pertinenceBucket_mono {p q : Int} (h : p ≤ q) :
    pertinenceBucket p ≤ pertinenceBucket q := by
  simp only [pertinenceBucket]
  split_ifs <;> omega

/-- C5: the pertinence bucket of m × r, for m and r in [1,4], is monotonic
non-decreasing in m and in r separately, with bucket(1 * 1) = 1 and
bucket(4 * 4) = 4. -/
theorem pertinenceBucket_monotone_in_scores (m r m2 r2 : Int)
    (hm1 : 1 ≤ m) (hm4 : m ≤ 4) (hr1 : 1 ≤ r) (hr4 : r ≤ 4)
    (hm21 : 1 ≤ m2) (hm24 : m2 ≤ 4) (hr21 : 1 ≤ r2) (hr24 : r2 ≤ 4)
    (hmm : m ≤ m2) (hrr : r ≤ r2) :
    pertinenceBucket (m * r) ≤ pertinenceBucket (m2 * r2) ∧
    pertinenceBucket (1 * 1) = 1 ∧ pertinenceBucket (4 * 4) = 4 := by
  refine ⟨?_, by decide, by decide⟩
  apply pertinenceBucket_mono
  have h1 : m * r ≤ m2 * r := by
    exact mul_le_mul_of_nonneg_right hmm (by omega)
  have h2 : m2 * r ≤ m2 * r2 := by
    exact mul_le_mul_of_nonneg_left hrr (by omega)
  omega

/-- Witness for C5: instantiated at m = 1, r = 2, m2 = 3, r2 = 4. -/
theorem pertinenceBucket_monotone_in_scores_witness :
    pertinenceBucket (1 * 2) ≤ pertinenceBucket (3 * 4) ∧
    pertinenceBucket (1 * 1) = 1 ∧ pertinenceBucket (4 * 4) = 4 :=
  pertinenceBucket_monotone_in_scores 1 2 3 4 (by decide) (by decide) (by decide)
    (by decide) (by decide) (by decide) (by decide) (by decide) (by decide) (by decide)

/-- Counterexample for C3 as stated: the renderPPCarto normalization does not
force maturite to be at least 1 — a stored value parsing to -2 is kept as -2,
because parseInt(x, 10) or 1 only replaces NaN and 0. -/
theorem ppc_normalization_not_at_least_one :
    (normalizePpc ⟨some 1, some 1, some (-2), some 1⟩).maturite = -2 ∧
    ¬ (1 ≤ (normalizePpc ⟨some 1, some 1, some (-2), some 1⟩).maturite) := by
  constructor
  · rfl
  · decide

/-- C3 (amended): for every normalized stakeholder cartography entry the
derived indice equals (dependance × penetration) / (maturite × confiance)
with 0 returned when the denominator is zero; the normalization forces
maturite and confiance to be nonzero (not necessarily at least 1), so the
denominator is never zero, the zero branch is unreachable, and the division
is always well-defined. -/
theorem ppc_indice_division_safe (it : PpcRaw) :
    (updateDerivedCells (normalizePpc it)).1 =
      (normalizePpc it).dependance * (normalizePpc it).penetration ∧
    (updateDerivedCells (normalizePpc it)).2.1 =
      (normalizePpc it).maturite * (normalizePpc it).confiance ∧
    (normalizePpc it).maturite ≠ 0 ∧
    (normalizePpc it).confiance ≠ 0 ∧
    (updateDerivedCells (normalizePpc it)).2.1 ≠ 0 ∧
    (updateDerivedCells (normalizePpc it)).2.2 =
      ((updateDerivedCells (normalizePpc it)).1 : ℚ) /
        ((updateDerivedCells (normalizePpc it)).2.1 : ℚ) := by
  have hd := parseIntOr_ne_zero it.dependance
  have hp := parseIntOr_ne_zero it.penetration
  have hm := parseIntOr_ne_zero it.maturite
  have hc := parseIntOr_ne_zero it.confiance
  have hprod : parseIntOr it.maturite 1 * parseIntOr it.confiance 1 ≠ 0 :=
    mul_ne_zero hm hc
  refine ⟨?_, ?_, hm, hc, ?_, ?_⟩
  · simp [updateDerivedCells, normalizePpc, jsOrI_of_ne_zero hd, jsOrI_of_ne_zero hp]
  · simp [updateDerivedCells, normalizePpc, jsOrI_of_ne_zero hm, jsOrI_of_ne_zero hc]
  · simpa [updateDerivedCells, normalizePpc, jsOrI_of_ne_zero hm, jsOrI_of_ne_zero hc]
      using hprod
  · simp [updateDerivedCells, normalizePpc, jsOrI_of_ne_zero hd, jsOrI_of_ne_zero hp,
      jsOrI_of_ne_zero hm, jsOrI_of_ne_zero hc, hprod]

/-- Counterexample for C4 as stated: the renderSROV normalization does not
clamp to [1,4] — a stored motivation parsing to 7 is kept as 7, and a stored
event impact that is the number 7 is also kept as 7. -/
theorem numeric_normalization_not_clamped :
    (normalizeSrov ⟨some 7, some 1, some 1⟩).motivation = 7 ∧
    ¬ ((normalizeSrov ⟨some 7, some 1, some 1⟩).motivation ≤ 4) ∧
    normalizeImpact (.num 7) = 7 ∧ ¬ (normalizeImpact (.num 7) ≤ 4) := by
  refine ⟨rfl, by decide, rfl, by decide⟩

/-- C4 (amended): the render-time normalization leaves each SROV and
stakeholder scored field equal to the integer parse of the stored value,
defaulting to 1 when the stored value is missing, non-numeric or zero — in
particular integers already in [1,4] are preserved — but it does not clamp
out-of-range parses; event impact keeps any nonzero stored number as is,
replaces a stored number 0 by 1, and turns any non-number value into its
parse result when that lies in [1,4] and into 1 otherwise (so in particular
a non-number impact always ends up in [1,4]). -/
theorem numeric_normalization_amended (v : Option Int) (iv : ImpactVal) :
    (v = none → parseIntOr v 1 = 1) ∧
    (v = some 0 → parseIntOr v 1 = 1) ∧
    (∀ n : Int, v = some n → 1 ≤ n → n ≤ 4 → parseIntOr v 1 = n) ∧
    (∀ n : Int, v = some n → n ≠ 0 → parseIntOr v 1 = n) ∧
    (∀ n : Int, iv = .num n → n ≠ 0 → normalizeImpact iv = n) ∧
    (∀ p : Option Int, iv = .other p →
      1 ≤ normalizeImpact iv ∧ normalizeImpact iv ≤ 4) ∧
    (iv = .num 0 → normalizeImpact iv = 1) ∧
    (iv = .other none → normalizeImpact iv = 1) ∧
    (∀ k : Int, iv = .other (some k) → 1 ≤ k → k ≤ 4 → normalizeImpact iv = k) ∧
    (∀ k : Int, iv = .other (some k) → ¬ (1 ≤ k ∧ k ≤ 4) →
      normalizeImpact iv = 1) := by
  refine ⟨?_, ?_, ?_, ?_, ?_, ?_, ?_, ?_, ?_, ?_⟩
  · rintro rfl; rfl
  · rintro rfl; rfl
  · rintro n rfl h1 _; simp only [parseIntOr, jsOrI]; omega
  · rintro n rfl hn; simp [parseIntOr, jsOrI, hn]
  · rintro n rfl hn; simp [normalizeImpact, hn]
  · rintro p rfl
    rcases p with _ | k
    · simp [normalizeImpact]
    · simp only [normalizeImpact]
      split <;> omega
  · rintro rfl; rfl
  · rintro rfl; rfl
  · rintro k rfl h1 h4
    simp only [normalizeImpact]
    rw [if_pos ⟨h1, h4⟩]
  · rintro k rfl hk
    simp only [normalizeImpact]
    rw [if_neg hk]

/-- Witness for the amended C4, exercising every clause of the event-impact
normalization: a stored value parsing to 3, a stored numeric impact 2, the
stored number 0, a non-number parsing inside [1,4], a non-number parsing
outside [1,4], and a non-number that does not parse. -/
theorem numeric_normalization_amended_witness :
    parseIntOr (some 3) 1 = 3 ∧ normalizeImpact (.num 2) = 2 ∧
    normalizeImpact (.num 0) = 1 ∧ normalizeImpact (.other (some 3)) = 3 ∧
    normalizeImpact (.other (some 7)) = 1 ∧ normalizeImpact (.other none) = 1 :=
  ⟨(numeric_normalization_amended (some 3) (.num 2)).2.2.1 3 rfl (by decide) (by decide),
    (numeric_normalization_amended (some 3) (.num 2)).2.2.2.2.1 2 rfl (by decide),
    (numeric_normalization_amended (some 3) (.num 0)).2.2.2.2.2.2.1 rfl,
    (numeric_normalization_amended (some 3) (.other (some 3))).2.2.2.2.2.2.2.2.1 3 rfl
      (by decide) (by decide),
    (numeric_normalization_amended (some 3) (.other (some 7))).2.2.2.2.2.2.2.2.2 7 rfl
      (by decide),
    (numeric_normalization_amended (some 3) (.other none)).2.2.2.2.2.2.2.1 rfl⟩

theorem length_filter_not {α : Type} (p : α → Bool) (l : List α) :
    (l.filter (fun a => !(p a))).length = l.length - (l.filter p).length := by
  induction l with
  | nil => rfl
  | cons x xs ih =>
    have hle := List.length_filter_le p xs
    by_cases h : p x = true
    · simp [List.filter_cons, h, ih]
    · simp only [List.filter_cons, h, Bool.not_false, Bool.false_eq_true, if_false,
        Bool.not_eq_true] at *
      simp [h, List.length_cons, ih]
      omega

/-- C2: deleting a mission removes exactly the events whose missionId equals
that mission's id — the event list shrinks by their number, every surviving
event is an original event of another mission, events of other missions
survive with multiplicity, the mission list shrinks by one, and the other
collections are untouched, all in the same mutation. -/
theorem deleteMission_cascades_exactly (d : Data) (idx : Nat) (mission : Mission)
    (h : d.missions[idx]? = some mission) :
    (deleteMission d idx).events.length =
      d.events.length - (d.events.filter (fun ev => ev.missionId = mission.id)).length ∧
    (∀ ev ∈ (deleteMission d idx).events, ev ∈ d.events ∧ ev.missionId ≠ mission.id) ∧
    (∀ ev ∈ d.events, ev.missionId ≠ mission.id → ev ∈ (deleteMission d idx).events) ∧
    List.Sublist (deleteMission d idx).events d.events ∧
    (deleteMission d idx).missions.length = d.missions.length - 1 ∧
    (deleteMission d idx).gap = d.gap ∧
    (deleteMission d idx).srov = d.srov ∧
    (deleteMission d idx).ppc = d.ppc ∧
    (deleteMission d idx).so = d.so ∧
    (deleteMission d idx).risques = d.risques := by
  have hidx : idx < d.missions.length := by
    rcases List.getElem?_eq_some.mp h with ⟨hlt, _⟩
    exact hlt
  simp only [deleteMission, h]
  refine ⟨?_, ?_, ?_, ?_, ?_, trivial, trivial, trivial, trivial, trivial⟩
  · have := length_filter_not (fun ev => decide (ev.missionId = mission.id)) d.events
    simpa using this
  · intro ev hev
    have := List.mem_filter.mp hev
    simpa using this
  · intro ev hev hne
    exact List.mem_filter.mpr ⟨hev, by simpa using hne⟩
  · exact List.filter_sublist _
  · have := List.length_eraseIdx_add_one hidx
    omega

/-- Witness for C2: deleting the first mission of the concrete data removes
its two events and leaves the event of the second mission. -/
theorem deleteMission_cascades_exactly_witness :
    exDeleteData.missions[0]? = some (exDeleteData.missions.head (by decide)) ∧
    (deleteMission exDeleteData 0).events.length =
      exDeleteData.events.length -
        (exDeleteData.events.filter
          (fun ev => ev.missionId = (exDeleteData.missions.head (by decide)).id)).length ∧
    (deleteMission exDeleteData 0).missions.length = exDeleteData.missions.length - 1 :=
  ⟨rfl,
    (deleteMission_cascades_exactly exDeleteData 0 _ rfl).1,
    (deleteMission_cascades_exactly exDeleteData 0 _ rfl).2.2.2.2.1⟩

/-- C6: the GAP action import candidate list contains exactly the
requirements whose normalized application does not begin with applique; a
requirement whose application is Appliqué is excluded, while Partiellement
appliqué, Non appliqué and Non applicable are all included. -/
theorem gap_import_excludes_applied (gap : List GapReq) (req : GapReq) :
    gapImportItems gap =
      (gap.filter (fun r => !(gapExcluded r))).map mkGapImportItem ∧
    (req.application = some "Appliqué" → gapExcluded req = true) ∧
    (req.application = some "Partiellement appliqué" → gapExcluded req = false) ∧
    (req.application = some "Non appliqué" → gapExcluded req = false) ∧
    (req.application = some "Non applicable" → gapExcluded req = false) := by
  refine ⟨?_, ?_, ?_, ?_, ?_⟩
  · induction gap with
    | nil => rfl
    | cons r rs ih =>
      by_cases h : gapExcluded r = true <;>
        simp [gapImportItems, List.filterMap_cons, List.filter_cons, h] <;>
        simpa [gapImportItems] using ih
  · intro hs; simp only [gapExcluded, normalizeApplication, hs]; decide
  · intro hs; simp only [gapExcluded, normalizeApplication, hs]; decide
  · intro hs; simp only [gapExcluded, normalizeApplication, hs]; decide
  · intro hs; simp only [gapExcluded, normalizeApplication, hs]; decide

/-- Witness for C6: on the four canonical statuses, exactly the fully applied
requirement is excluded and the other three are kept. -/
theorem gap_import_excludes_applied_witness :
    gapExcluded (exGapReqs.head (by decide)) = true ∧
    gapImportItems exGapReqs =
      (exGapReqs.filter (fun r => !(gapExcluded r))).map mkGapImportItem ∧
    (gapImportItems exGapReqs).length = 3 := by
  refine ⟨(gap_import_excludes_applied exGapReqs (exGapReqs.head (by decide))).2.1 rfl,
    (gap_import_excludes_applied exGapReqs (exGapReqs.head (by decide))).1, ?_⟩
  decide

/-- C7: a malformed import document — unparsable JSON for either importer, or
a non-array top level for the GAP bulk import — surfaces an error and leaves
the store completely unmodified without saving, so no partial import is ever
applied in these cases. -/
theorem malformed_import_leaves_store_unchanged (analyses : List Analysis)
    (gap : List GapReq) (mkId : Nat → String) :
    importFileChange .unparsable analyses =
      { analyses := analyses, errorShown := true, saved := false } ∧
    gapImportChange .unparsable gap mkId =
      { gap := gap, errorShown := true, saved := false } ∧
    gapImportChange .nonArray gap mkId =
      { gap := gap, errorShown := true, saved := false } :=
  ⟨rfl, rfl, rfl⟩

/-- C8: importing the document produced by exporting an analysis appends an
analysis equal to the original — no id is regenerated at import time, so the
round trip is exact — the imported copy becomes the selected (last) analysis
and no error is raised. -/
theorem export_import_roundtrip (a : Analysis) (analyses : List Analysis) :
    (importFileChange (exportAnalysis a) analyses).analyses = analyses ++ [a] ∧
    (importFileChange (exportAnalysis a) analyses).analyses.getLast? = some a ∧
    (importFileChange (exportAnalysis a) analyses).errorShown = false ∧
    (importFileChange (exportAnalysis a) analyses).saved = true := by
  refine ⟨rfl, ?_, rfl, rfl⟩
  simp [importFileChange, exportAnalysis]

theorem foldl_append_singleton {α β : Type} (f : α → β) (names : List α)
    (init : List β) :
    names.foldl (fun rs n => rs ++ [f n]) init = init ++ names.map f := by
  induction names generalizing init with
  | nil => simp
  | cons n ns ih => simp [List.foldl_cons, ih]

/-- C10: every risk added to an operational scenario through the modal —
single pick or manual entry (addRiskToScenario) or multi-selection apply —
is stored with per-risk vraisemblance and gravite equal to the scenario-level
values at the moment of addition, and the scenario-level values themselves
are unchanged. -/
theorem added_risks_copy_scenario_levels (sc : Scenario) (name : String)
    (names : List String) :
    (addRiskToScenario sc name).risks =
      sc.risks ++
        [{ name := name, vraisemblance := sc.vraisemblance, gravite := sc.gravite }] ∧
    (applyRiskSelection sc names).risks =
      sc.risks ++ names.map
        (fun n => { name := n, vraisemblance := sc.vraisemblance,
                    gravite := sc.gravite }) ∧
    (∀ r ∈ (addRiskToScenario sc name).risks, r ∈ sc.risks ∨
      (r.vraisemblance = sc.vraisemblance ∧ r.gravite = sc.gravite)) ∧
    (∀ r ∈ (applyRiskSelection sc names).risks, r ∈ sc.risks ∨
      (r.vraisemblance = sc.vraisemblance ∧ r.gravite = sc.gravite)) ∧
    (addRiskToScenario sc name).vraisemblance = sc.vraisemblance ∧
    (addRiskToScenario sc name).gravite = sc.gravite := by
  have happ : (applyRiskSelection sc names).risks =
      sc.risks ++ names.map
        (fun n => { name := n, vraisemblance := sc.vraisemblance,
                    gravite := sc.gravite }) := by
    simp [applyRiskSelection, foldl_append_singleton]
  refine ⟨rfl, happ, ?_, ?_, rfl, rfl⟩
  · intro r hr
    rcases List.mem_append.mp hr with h | h
    · exact Or.inl h
    · simp only [List.mem_singleton] at h
      subst h
      exact Or.inr ⟨rfl, rfl⟩
  · intro r hr
    rw [happ] at hr
    rcases List.mem_append.mp hr with h | h
    · exact Or.inl h
    · rcases List.mem_map.mp h with ⟨n, _, hn⟩
      subst hn
      exact Or.inr ⟨rfl, rfl⟩

/-- Witness for C10: the risk added to the concrete scenario carries its
vraisemblance 3 and gravite 2. -/
theorem added_risks_copy_scenario_levels_witness :
    (⟨"T1001", some 3, some 2⟩ : ScRisk) ∈ (addRiskToScenario exScenario "T1001").risks ∧
    ((⟨"T1001", some 3, some 2⟩ : ScRisk) ∈ exScenario.risks ∨
      ((⟨"T1001", some 3, some 2⟩ : ScRisk).vraisemblance = exScenario.vraisemblance ∧
        (⟨"T1001", some 3, some 2⟩ : ScRisk).gravite = exScenario.gravite)) :=
  ⟨by decide,
    (added_risks_copy_scenario_levels exScenario "T1001" []).2.2.1
      ⟨"T1001", some 3, some 2⟩ (by decide)⟩

theorem lookup_bumpStat_self (name : String) (v : Int)
    (stats : List (String × SupportStat)) :
    (bumpStat name v stats).lookup name = some (mergeStat (stats.lookup name) 1 v) := by
  induction stats with
  | nil => simp [bumpStat, List.lookup, mergeStat]
  | cons e rest ih =>
    obtain ⟨n, st⟩ := e
    by_cases h : n = name
    · subst h
      simp [bumpStat, List.lookup, mergeStat]
    · have hb : (name == n) = false := by
        simp [Ne.symm h]
      simp [bumpStat, h, List.lookup, hb, ih]

theorem lookup_bumpStat_other (name other : String) (v : Int)
    (stats : List (String × SupportStat)) (hne : other ≠ name) :
    (bumpStat name v stats).lookup other = stats.lookup other := by
  induction stats with
  | nil =>
    have hb : (other == name) = false := by simp [hne]
    simp [bumpStat, List.lookup, hb]
  | cons e rest ih =>
    obtain ⟨n, st⟩ := e
    by_cases h : n = name
    · subst h
      have hb : (other == n) = false := by simp [hne]
      simp [bumpStat, List.lookup, hb]
    · by_cases h2 : other = n
      · subst h2
        simp [bumpStat, h, List.lookup]
      · have hb : (other == n) = false := by simp [h2]
        simp [bumpStat, h, List.lookup, hb, ih]

theorem mergeStat_merge (o : Option SupportStat) (k : Nat) (v : Int) :
    mergeStat (some (mergeStat o 1 v)) k v = mergeStat o (k + 1) v := by
  cases o with
  | none =>
    simp only [mergeStat, SupportStat.mk.injEq]
    constructor
    · omega
    · rw [max_assoc, max_self]
  | some st =>
    simp only [mergeStat, SupportStat.mk.injEq]
    constructor
    · omega
    · rw [max_assoc, max_self]

theorem lookup_bumpSupports (name : String) (hname : name ≠ "") (v : Int)
    (sup : List Support) (stats : List (String × SupportStat)) :
    (bumpSupports v sup stats).lookup name =
      (if (sup.filter (fun s => supportKey s = name)).length = 0 then stats.lookup name
       else some (mergeStat (stats.lookup name)
         ((sup.filter (fun s => supportKey s = name)).length) v)) := by
  induction sup generalizing stats with
  | nil => simp [bumpSupports]
  | cons s rest ih =>
    by_cases hk : supportKey s = ""
    · have hne : ¬ (supportKey s = name) := by
        rw [hk]; exact fun h => hname h.symm
      have step : bumpSupports v (s :: rest) stats = bumpSupports v rest stats := by
        simp [bumpSupports, List.foldl_cons, hk]
      rw [step, ih]
      simp [List.filter_cons, hne]
    · by_cases hsn : supportKey s = name
      · have step : bumpSupports v (s :: rest) stats =
            bumpSupports v rest (bumpStat name v stats) := by
          simp [bumpSupports, List.foldl_cons, hk, hsn, hname]
        have hflt : ((s :: rest).filter (fun s => supportKey s = name)).length =
            (rest.filter (fun s => supportKey s = name)).length + 1 := by
          simp [List.filter_cons, hsn]
        rw [step, ih, lookup_bumpStat_self, hflt]
        by_cases hz : (rest.filter (fun s => supportKey s = name)).length = 0
        · simp [hz]
        · simp [hz, mergeStat_merge]
      · have hnn : name ≠ supportKey s := fun h => hsn h.symm
        have step : bumpSupports v (s :: rest) stats =
            bumpSupports v rest (bumpStat (supportKey s) v stats) := by
          simp [bumpSupports, List.foldl_cons, hk]
        rw [step, ih, lookup_bumpStat_other _ _ _ _ hnn]
        simp [List.filter_cons, hsn]

theorem lookup_supportStats_fold (events : List Event) (name : String)
    (hname : name ≠ "") (missions : List Mission)
    (stats : List (String × SupportStat)) :
    (missions.foldl
      (fun stats m => bumpSupports (missionImpact events m.id) m.supports stats)
      stats).lookup name = statSpec events name missions (stats.lookup name) := by
  induction missions generalizing stats with
  | nil => rfl
  | cons m rest ih =>
    rw [List.foldl_cons, ih, lookup_bumpSupports name hname]
    simp only [statSpec]

theorem filter_length_zero_iff_any (p : α → Bool) (l : List α) :
    (l.filter p).length = 0 ↔ l.any p = false := by
  induction l with
  | nil => simp
  | cons x xs ih =>
    by_cases h : p x = true <;> simp [List.filter_cons, List.any_cons, h, ih]

theorem any_true_of_filter_length_ne_zero (p : α → Bool) (l : List α)
    (hz : (l.filter p).length ≠ 0) : l.any p = true := by
  cases h : l.any p with
  | false => exact absurd ((filter_length_zero_iff_any p l).mpr h) hz
  | true => rfl

theorem statSpec_some (events : List Event) (name : String)
    (missions : List Mission) (st : SupportStat) :
    statSpec events name missions (some st) =
      some { degree := st.degree + supportEntryCount missions name
             maxImpact :=
               ((missions.filter
                 (fun m => m.supports.any (fun s => supportKey s = name))).map
                   (fun m => missionImpact events m.id)).foldl max st.maxImpact } := by
  induction missions generalizing st with
  | nil => simp [statSpec, supportEntryCount]
  | cons m rest ih =>
    have hsplit : supportEntryCount (m :: rest) name =
        (m.supports.filter (fun s => supportKey s = name)).length +
          supportEntryCount rest name := by
      simp [supportEntryCount]
    by_cases hz : (m.supports.filter (fun s => supportKey s = name)).length = 0
    · have hany : (m.supports.any (fun s => supportKey s = name)) = false :=
        (filter_length_zero_iff_any _ _).mp hz
      rw [hsplit, hz]
      simp only [statSpec, hz, if_true, ih]
      simp [List.filter_cons, hany]
    · have hany := any_true_of_filter_length_ne_zero
        (fun s => decide (supportKey s = name)) m.supports hz
      simp only [statSpec, hz, if_false, mergeStat, ih]
      rw [hsplit]
      have hfltm : (m :: rest).filter
          (fun m2 => m2.supports.any (fun s => supportKey s = name)) =
          m :: rest.filter (fun m2 => m2.supports.any (fun s => supportKey s = name)) := by
        simp [List.filter_cons, hany]
      rw [hfltm]
      simp only [List.map_cons, List.foldl_cons, Nat.add_assoc]

theorem statSpec_none (events : List Event) (name : String)
    (missions : List Mission) :
    statSpec events name missions none =
      (if supportEntryCount missions name = 0 then none
       else some { degree := supportEntryCount missions name
                   maxImpact := supportMaxImpact missions events name }) := by
  induction missions with
  | nil => simp [statSpec, supportEntryCount]
  | cons m rest ih =>
    have hsplit : supportEntryCount (m :: rest) name =
        (m.supports.filter (fun s => supportKey s = name)).length +
          supportEntryCount rest name := by
      simp [supportEntryCount]
    by_cases hz : (m.supports.filter (fun s => supportKey s = name)).length = 0
    · have hany : (m.supports.any (fun s => supportKey s = name)) = false :=
        (filter_length_zero_iff_any _ _).mp hz
      rw [hsplit, hz]
      simp only [statSpec, hz, if_true, ih]
      simp [supportMaxImpact, List.filter_cons, hany]
    · have hany := any_true_of_filter_length_ne_zero
        (fun s => decide (supportKey s = name)) m.supports hz
      simp only [statSpec, hz, if_false, mergeStat, statSpec_some]
      have hm : supportMaxImpact (m :: rest) events name =
          ((rest.filter
            (fun m2 => m2.supports.any (fun s => supportKey s = name))).map
              (fun m2 => missionImpact events m2.id)).foldl max
            (max 0 (missionImpact events m.id)) := by
        simp only [supportMaxImpact, List.filter_cons, hany, if_true, List.map_cons,
          List.foldl_cons]
      rw [hsplit, hm]
      have hne : (m.supports.filter (fun s => supportKey s = name)).length +
          supportEntryCount rest name ≠ 0 := by omega
      simp [hne]

theorem le_foldl_max (x : Int) (xs : List Int) :
    x ≤ xs.foldl max x ∧ ∀ y ∈ xs, y ≤ xs.foldl max x := by
  induction xs generalizing x with
  | nil => simp
  | cons y ys ih =>
    obtain ⟨h1, h2⟩ := ih (max x y)
    refine ⟨le_trans (le_max_left x y) h1, ?_⟩
    intro z hz
    rcases List.mem_cons.mp hz with rfl | hz
    · exact le_trans (le_max_right x z) h1
    · exact h2 z hz

theorem foldl_max_mem (x : Int) (xs : List Int) :
    xs.foldl max x = x ∨ xs.foldl max x ∈ xs := by
  induction xs generalizing x with
  | nil => simp
  | cons y ys ih =>
    rcases ih (max x y) with h | h
    · rcases max_choice x y with hm | hm
      · left
        rw [List.foldl_cons, h, hm]
      · right
        rw [List.foldl_cons, h, hm]
        exact List.mem_cons_self y ys
    · right
      exact List.mem_cons_of_mem y h

/-- C9 (amended): missionImpact of a mission is the maximum parsed impact
over the events whose missionId equals it, 0 when it has none; for every
nonempty trimmed support name, the Atelier 1 stats give degree equal to the
number of support entries bearing that name across all missions — a mission
listing the same name twice counts twice, so degree can exceed the count of
missions referencing the support — and maxImpact equal to the maximum,
with floor 0, of missionImpact over the missions holding such an entry. -/
theorem atelier1_mission_and_support_stats (missions : List Mission)
    (events : List Event) (mid name : String) (hname : name ≠ "") :
    (events.filter (fun ev => ev.missionId = mid) = [] →
      missionImpact events mid = 0) ∧
    (∀ ev ∈ events, ev.missionId = mid →
      eventImpactA1 ev ≤ missionImpact events mid) ∧
    (events.filter (fun ev => ev.missionId = mid) ≠ [] →
      ∃ ev ∈ events, ev.missionId = mid ∧
        missionImpact events mid = eventImpactA1 ev) ∧
    (supportStats missions events).lookup name =
      (if supportEntryCount missions name = 0 then none
       else some { degree := supportEntryCount missions name
                   maxImpact := supportMaxImpact missions events name }) := by
  refine ⟨?_, ?_, ?_, ?_⟩
  · intro h
    simp [missionImpact, h]
  · intro ev hev hmid
    have hmem : ev ∈ events.filter (fun e => e.missionId = mid) :=
      List.mem_filter.mpr ⟨hev, by simpa using hmid⟩
    have hmap : eventImpactA1 ev ∈
        (events.filter (fun e => e.missionId = mid)).map eventImpactA1 :=
      List.mem_map_of_mem _ hmem
    rcases hl : (events.filter (fun e => e.missionId = mid)).map eventImpactA1
      with _ | ⟨x, xs⟩
    · rw [hl] at hmap
      simp at hmap
    · rw [hl] at hmap
      simp only [missionImpact, hl]
      rcases List.mem_cons.mp hmap with h | h
      · rw [h]
        exact (le_foldl_max x xs).1
      · exact (le_foldl_max x xs).2 _ h
  · intro h
    rcases hl : (events.filter (fun e => e.missionId = mid)).map eventImpactA1
      with _ | ⟨x, xs⟩
    · exact absurd (List.map_eq_nil_iff.mp hl) h
    · have hfold : xs.foldl max x ∈ x :: xs := by
        rcases foldl_max_mem x xs with h1 | h1
        · rw [h1]
          exact List.mem_cons_self x xs
        · exact List.mem_cons_of_mem x h1
      rw [← hl] at hfold
      rcases List.mem_map.mp hfold with ⟨ev, hevf, hevi⟩
      have hev := List.mem_filter.mp hevf
      refine ⟨ev, hev.1, by simpa using hev.2, ?_⟩
      simp only [missionImpact, hl]
      exact hevi.symm
  · have h1 : (supportStats missions events).lookup name =
        statSpec events name missions
          (([] : List (String × SupportStat)).lookup name) :=
      lookup_supportStats_fold events name hname missions []
    rw [h1]
    exact statSpec_none events name missions

/-- Counterexample for C9 as stated: with one mission listing the support
name S1 twice, the Atelier 1 view reports degree 2 although exactly one
mission references S1, so degree is not the count of missions referencing
the support. -/
theorem supportStats_degree_not_mission_count :
    (supportStats dupSupportMissions []).lookup "S1" =
      some { degree := 2, maxImpact := 0 } ∧
    missionsReferencing dupSupportMissions "S1" = 1 ∧
    (2 : Nat) ≠ 1 :=
  ⟨by decide, by decide, by decide⟩

/-- Witness for C9 (amended), on the concrete M1/E1/S1 scenario:
missionImpact is 3 and the S1 stat carries degree 1 and maxImpact 3. -/
theorem atelier1_mission_and_support_stats_witness :
    missionImpact exA1Events "m1" = 3 ∧
    (supportStats exA1Missions exA1Events).lookup "S1" =
      (if supportEntryCount exA1Missions "S1" = 0 then none
       else some { degree := supportEntryCount exA1Missions "S1"
                   maxImpact := supportMaxImpact exA1Missions exA1Events "S1" }) ∧
    supportEntryCount exA1Missions "S1" = 1 ∧
    supportMaxImpact exA1Missions exA1Events "S1" = 3 :=
  ⟨by decide,
    (atelier1_mission_and_support_stats exA1Missions exA1Events "m1" "S1"
      (by decide)).2.2.2,
    by decide, by decide⟩

end ERM2
